import Mathlib

/-!
Verification of the ClipWise caption-acquisition and transcript-normalization
pipeline (`src/app/api/transcribe/route.ts` and the sibling variant of the same
endpoint that carries the language-preference track selector).

The TypeScript source is shallowly embedded: strings are `String`/`List Char`,
integer-valued JavaScript numbers are naturals and integers, the
decimal-seconds conversion of format B is modelled in IEEE-754 binary64
semantics (round-to-nearest-even on exact rationals, see the `DFloat` model),
regular-expression scans are embedded as explicit character-level scanners
that reproduce the leftmost-match semantics of `RegExp.exec` for the concrete
patterns used by the source, and fallible code returns `Option`/`Except`.
Fuelled recursions are always started with fuel equal to the input length,
which bounds the number of scan positions, so they never run out of fuel on
their actual argument.
-/

namespace Clipwise

/-- Character class of JavaScript `\s` restricted to the code points that can
occur in the payloads handled here (space, tab, LF, CR, VT, FF, NBSP). -/
def jsSpace (c : Char) : Bool :=
  c = ' ' || c = '\t' || c = '\n' || c = '\r' ||
  c = Char.ofNat 11 || c = Char.ofNat 12 || c = Char.ofNat 160

/-- Decimal digit, the `\d` class (code points 48–57). -/
def jsDigit (c : Char) : Bool :=
  48 ≤ c.toNat && c.toNat ≤ 57

/-- Characters excluded from the JavaScript `.` class (which does not match
line terminators): LF, CR, U+2028, U+2029. -/
def jsDotChar (c : Char) : Bool :=
  !(c = '\n' || c = '\r' || c = Char.ofNat 8232 || c = Char.ofNat 8233)

/-- Value of a list of decimal digits, as computed by `parseInt` on an
all-digit string. -/
def digitsToNat (l : List Char) : Nat :=
  l.foldl (fun a c => a * 10 + (c.toNat - 48)) 0

/-- JavaScript `String.prototype.trim` on the character classes above. -/
def trimJs (s : List Char) : List Char :=
  ((s.dropWhile jsSpace).reverse.dropWhile jsSpace).reverse

/-- JavaScript `padStart(2, '0')` applied to a numeral string. -/
def padStart2 (s : String) : String :=
  if s.length ≥ 2 then s else String.mk (List.replicate (2 - s.length) '0') ++ s

/-- Truthiness of an optional string field coming from a parsed JSON body:
`undefined` and the empty string are falsy. -/
def jsTruthy : Option String → Bool
  | none => false
  | some s => s ≠ ""

/-- JavaScript `a || b` for an optional string with a string default. -/
def jsOr (o : Option String) (d : String) : String :=
  match o with
  | none => d
  | some s => if s = "" then d else s

/-- Match a literal character sequence at the head of the input, returning the
remainder on success. -/
def stripLit : List Char → List Char → Option (List Char)
  | [], s => some s
  | _ :: _, [] => none
  | p :: ps, c :: cs => if c = p then stripLit ps cs else none

/-- Greedy `class+` matching: one or more characters satisfying `p`, returning
the run and the remainder.  Fails on an empty run. -/
def takeClass1 (p : Char → Bool) (s : List Char) : Option (List Char × List Char) :=
  let t := s.takeWhile p
  if t.isEmpty then none else some (t, s.drop t.length)

/-- Split the input at the first occurrence of the literal `pat`, returning the
characters before it and the characters after it.  This is the semantics of a
lazy `([\s\S]*?)pat` group. -/
def splitAtSub (pat : List Char) : List Char → Option (List Char × List Char)
  | [] => if pat.isEmpty then some ([], []) else none
  | c :: cs =>
    if pat.isPrefixOf (c :: cs) then some ([], (c :: cs).drop pat.length)
    else
      match splitAtSub pat cs with
      | some (pre, rest) => some (c :: pre, rest)
      | none => none

/-- Leftmost search: try the position matcher at every successive position of
the input, exactly as a `RegExp` search advances its starting position after a
failed match attempt. -/
def scanOpt (tryAt : List Char → Option α) : List Char → Option α
  | [] => tryAt []
  | c :: cs =>
    match tryAt (c :: cs) with
    | some r => some r
    | none => scanOpt tryAt cs

/-- Repeated leftmost search collecting every match, as a `while (exec)` loop
over a global regex: after each match the scan resumes right after the matched
span.  The fuel bounds the number of positions visited; callers pass the input
length, which suffices because every step consumes at least one character. -/
def scanAll (tryAt : List Char → Option (α × List Char)) : Nat → List Char → List α
  | 0, _ => []
  | _ + 1, [] => []
  | fuel + 1, c :: cs =>
    match tryAt (c :: cs) with
    | some (g, rest) => g :: scanAll tryAt fuel rest
    | none => scanAll tryAt fuel cs

/-! ## Caption tracks and the two track selectors -/

/-- Caption track metadata as consumed by the selectors.  Auto-generated
tracks carry `kind = "asr"`; manual tracks have some other value (the source
compares with `!== 'asr'`, and a missing `kind` field is embedded as `""`). -/
structure CaptionTrack where
  languageCode : String
  kind : String
deriving Repr, DecidableEq

/-- Ordered language preference list of the selector variant
(`preferredLangs` in the source). -/
def preferredLangs : List String :=
  ["pt", "en", "es", "fr", "de", "it", "ja", "ko", "zh"]

/-- Loop 1 of the selector: for each language in preference order, find the
index of the first manual (`kind !== 'asr'`) track in that language; the first
language that yields a track wins. -/
def findManualIdx (tracks : List CaptionTrack) : List String → Option Nat
  | [] => none
  | lang :: rest =>
    match tracks.findIdx? (fun t => t.languageCode = lang && t.kind ≠ "asr") with
    | some i => some i
    | none => findManualIdx tracks rest

/-- Loop 2 of the selector: same scan over all tracks, manual or not. -/
def findAnyIdx (tracks : List CaptionTrack) : List String → Option Nat
  | [] => none
  | lang :: rest =>
    match tracks.findIdx? (fun t => t.languageCode = lang) with
    | some i => some i
    | none => findAnyIdx tracks rest

/-- Index selected by the preference-list selector.  `selectedTrack` starts at
`tracks[0]`; loop 1 may move it to the first manual preferred track; the
source then re-runs the all-tracks scan under the reference-equality guard
`selectedTrack === tracks[0]`, which holds exactly when loop 1 either found
nothing or found the track at index 0 (array elements produced by
`JSON.parse` are distinct objects, so `===` with `tracks[0]` is index
equality with 0). -/
def selectTrackIdx (tracks : List CaptionTrack) : Nat :=
  let afterManual := (findManualIdx tracks preferredLangs).getD 0
  if afterManual = 0 then (findAnyIdx tracks preferredLangs).getD 0
  else afterManual

/-- Preference-list track selector of the `part_002` variant
(`fetchTranscript`, the `preferredLangs` block). -/
def selectTrack (tracks : List CaptionTrack) : Option CaptionTrack :=
  tracks.get? (selectTrackIdx tracks)

/-- Track selector of `route.ts` (`captionTracks.find(t => t.kind !== 'asr')
|| captionTracks[0]`): first manual track, else the first track. -/
def selectTrackRoute (tracks : List CaptionTrack) : Option CaptionTrack :=
  match tracks.find? (fun t => t.kind ≠ "asr") with
  | some t => some t
  | none => tracks.head?

/-- Modelled from the spec: the Track Selector policy as the specification
states it.  Rule 1: among manual tracks, the first (in preference order) whose
language matches the list; rule 2: among all tracks, the first whose language
matches the list; rule 3: the first track. -/
def specSelectTrack (tracks : List CaptionTrack) : Option CaptionTrack :=
  match findManualIdx tracks preferredLangs with
  | some i => tracks.get? i
  | none =>
    match findAnyIdx tracks preferredLangs with
    | some i => tracks.get? i
    | none => tracks.head?

/-! ## Entity resolver -/

/-- Identifier alphabet `[a-zA-Z0-9_-]`. -/
def isIdChar (c : Char) : Bool :=
  c.isAlphanum || c = '_' || c = '-'

/-- Try one alternative of the first pattern at the current position: the
literal shape marker followed by exactly eleven identifier characters
(`{11}` takes eleven; anything may follow). -/
def tryShapeLit (lit : List Char) (s : List Char) : Option String :=
  match stripLit lit s with
  | none => none
  | some rest =>
    let cs := rest.take 11
    if cs.length = 11 && cs.all isIdChar then some (String.mk cs) else none

/-- Alternation `(?:v=|\/v\/|youtu\.be\/|\/embed\/)([a-zA-Z0-9_-]{11})` tried
at one position, alternatives in source order. -/
def tryShapeAt (s : List Char) : Option String :=
  match tryShapeLit ['v', '='] s with
  | some r => some r
  | none =>
    match tryShapeLit ['/', 'v', '/'] s with
    | some r => some r
    | none =>
      match tryShapeLit ['y', 'o', 'u', 't', 'u', '.', 'b', 'e', '/'] s with
      | some r => some r
      | none => tryShapeLit ['/', 'e', 'm', 'b', 'e', 'd', '/'] s

/-- Search of the first pattern over the whole input. -/
def searchShapes : List Char → Option String :=
  scanOpt tryShapeAt

/-- `extractVideoId` of `route.ts`: the URL-shape pattern first, then the
anchored bare-identifier pattern `^([a-zA-Z0-9_-]{11})$`; `null` becomes
`none`. -/
def extractVideoId (url : String) : Option String :=
  match searchShapes url.data with
  | some v => some v
  | none =>
    if url.data.length = 11 && url.data.all isIdChar then some url else none

/-! ## Segment text normalization (`route.ts`) -/

/-- One pass of `.replace(/<[^>]+>/g, '')`: at `<`, a maximal run of one or
more non-`>` characters followed by `>` is deleted; otherwise the character is
kept and the scan advances one position.  Fuel is the input length. -/
def stripMarkup : Nat → List Char → List Char
  | 0, s => s
  | _ + 1, [] => []
  | fuel + 1, c :: cs =>
    if c = '<' then
      let run := cs.takeWhile (fun d => d ≠ '>')
      if run.isEmpty then c :: stripMarkup fuel cs
      else
        match cs.drop run.length with
        | '>' :: rest => stripMarkup fuel rest
        | _ => c :: stripMarkup fuel cs
    else c :: stripMarkup fuel cs

/-- `String.fromCharCode(parseInt(code))`: the code is reduced modulo 2^16 by
ToUint16.  A resulting lone surrogate is not a valid scalar value; `Char.ofNat`
maps it to `\0` (the only spot where the embedding departs from JS strings,
and only for surrogate numeric references). -/
def jsFromCharCode (n : Nat) : Char :=
  Char.ofNat (n % 65536)

/-- `.replace(/&#(\d+);/g, (m, code) => String.fromCharCode(parseInt(code)))`
as a left-to-right scan.  Fuel is the input length. -/
def decodeNumRefs : Nat → List Char → List Char
  | 0, s => s
  | _ + 1, [] => []
  | fuel + 1, c :: cs =>
    if c = '&' then
      match cs with
      | '#' :: rest =>
        let ds := rest.takeWhile jsDigit
        if ds.isEmpty then c :: decodeNumRefs fuel cs
        else
          match rest.drop ds.length with
          | ';' :: after => jsFromCharCode (digitsToNat ds) :: decodeNumRefs fuel after
          | _ => c :: decodeNumRefs fuel cs
      | _ => c :: decodeNumRefs fuel cs
    else c :: decodeNumRefs fuel cs

/-- One global literal replacement, the semantics of
`.replace(/pat/g, repl)` for a literal pattern: leftmost matches, the scan
resumes after each matched span, and replacements are not rescanned.  Fuel is
the input length. -/
def replaceAll (pat repl : List Char) : Nat → List Char → List Char
  | 0, s => s
  | _ + 1, [] => []
  | fuel + 1, c :: cs =>
    if pat.isPrefixOf (c :: cs) then
      repl ++ replaceAll pat repl fuel ((c :: cs).drop pat.length)
    else c :: replaceAll pat repl fuel cs

/-- String-level wrapper of `replaceAll`. -/
def jsReplaceAll (s pat repl : String) : String :=
  String.mk (replaceAll pat.data repl.data s.data.length s.data)

/-- Apostrophe character, the replacement of the two numeric apostrophe
rules. -/
def aposChar : String :=
  String.mk [Char.ofNat 39]

/-- `decodeHtmlEntities` of `route.ts`: sequential global replacements for
`&amp;` `&lt;` `&gt;` `&quot;` `&#39;` `&#x27;` `&nbsp;`, then decimal numeric
character references.  Note there is no rule for the literal `&apos;` entity
and no newline handling in this variant. -/
def decodeHtmlEntities (s : String) : String :=
  let s1 := jsReplaceAll s "&amp;" "&"
  let s2 := jsReplaceAll s1 "&lt;" "<"
  let s3 := jsReplaceAll s2 "&gt;" ">"
  let s4 := jsReplaceAll s3 "&quot;" "\""
  let s5 := jsReplaceAll s4 "&#39;" aposChar
  let s6 := jsReplaceAll s5 "&#x27;" aposChar
  let s7 := jsReplaceAll s6 "&nbsp;" " "
  String.mk (decodeNumRefs s7.data.length s7.data)

/-- `decodeXmlEntities` of the `part_002` variant: decodes `&apos;` as well
and collapses newlines to spaces (but that variant never strips markup). -/
def decodeXmlEntities (s : String) : String :=
  let s1 := jsReplaceAll s "&amp;" "&"
  let s2 := jsReplaceAll s1 "&lt;" "<"
  let s3 := jsReplaceAll s2 "&gt;" ">"
  let s4 := jsReplaceAll s3 "&quot;" "\""
  let s5 := jsReplaceAll s4 "&#39;" aposChar
  let s6 := jsReplaceAll s5 "&apos;" aposChar
  let s7 := String.mk (decodeNumRefs s6.data.length s6.data)
  jsReplaceAll s7 "\n" " "

/-- Inner-payload normalization of `route.ts`:
`decodeHtmlEntities(match[3].replace(/<[^>]+>/g, '').trim())`. -/
def normalizeSegText (raw : List Char) : String :=
  decodeHtmlEntities (String.mk (trimJs (stripMarkup raw.length raw)))

/-- Modelled from the spec: the normalization as the specification describes
it — strip nested markup, decode the five standard XML entities (`amp`, `lt`,
`gt`, `quot`, `apos`) plus decimal numeric references, collapse internal
newlines to spaces, and trim. -/
def specNormalizeText (raw : List Char) : String :=
  let stripped := stripMarkup raw.length raw
  let s1 := jsReplaceAll (String.mk stripped) "&amp;" "&"
  let s2 := jsReplaceAll s1 "&lt;" "<"
  let s3 := jsReplaceAll s2 "&gt;" ">"
  let s4 := jsReplaceAll s3 "&quot;" "\""
  let s5 := jsReplaceAll s4 "&apos;" aposChar
  let s6 := String.mk (decodeNumRefs s5.data.length s5.data)
  let s7 := jsReplaceAll s6 "\n" " "
  String.mk (trimJs s7.data)

/-! ## Wire-format scanners (`route.ts`) -/

/-- Raw capture of one segment tag: start attribute, duration attribute,
inner payload. -/
structure RawSeg where
  startAttr : List Char
  durAttr : List Char
  body : List Char
deriving Repr, DecidableEq

/-- Match attempt of format A (`srv3`) at one position:
`<p\s+t="(\d+)"\s+d="(\d+)"[^>]*>([\s\S]*?)<\/p>`.  Every sub-pattern here is
deterministic (each greedy class is disjoint from its follower, `[^>]*>` stops
at the first `>`, and the lazy group stops at the first `</p>`), so no
backtracking search is needed. -/
def matchSrv3At (s : List Char) : Option (RawSeg × List Char) := do
  let s ← stripLit ['<', 'p'] s
  let (_, s) ← takeClass1 jsSpace s
  let s ← stripLit ['t', '=', '"'] s
  let (tAttr, s) ← takeClass1 jsDigit s
  let s ← stripLit ['"'] s
  let (_, s) ← takeClass1 jsSpace s
  let s ← stripLit ['d', '=', '"'] s
  let (dAttr, s) ← takeClass1 jsDigit s
  let s ← stripLit ['"'] s
  let (_, s) ← splitAtSub ['>'] s
  let (body, rest) ← splitAtSub ['<', '/', 'p', '>'] s
  pure (⟨tAttr, dAttr, body⟩, rest)

/-- Digit-or-dot class `[\d.]`. -/
def digitDot (c : Char) : Bool :=
  jsDigit c || c = '.'

/-- Match attempt of format B (standard) at one position:
`<text\s+start="([\d.]+)"\s+dur="([\d.]+)"[^>]*>([\s\S]*?)<\/text>`. -/
def matchStdAt (s : List Char) : Option (RawSeg × List Char) := do
  let s ← stripLit ['<', 't', 'e', 'x', 't'] s
  let (_, s) ← takeClass1 jsSpace s
  let s ← stripLit ['s', 't', 'a', 'r', 't', '=', '"'] s
  let (tAttr, s) ← takeClass1 digitDot s
  let s ← stripLit ['"'] s
  let (_, s) ← takeClass1 jsSpace s
  let s ← stripLit ['d', 'u', 'r', '=', '"'] s
  let (dAttr, s) ← takeClass1 digitDot s
  let s ← stripLit ['"'] s
  let (_, s) ← splitAtSub ['>'] s
  let (body, rest) ← splitAtSub ['<', '/', 't', 'e', 'x', 't', '>'] s
  pure (⟨tAttr, dAttr, body⟩, rest)

/-- All format-A matches of the payload, in encounter order. -/
def scanSrv3 (s : List Char) : List RawSeg :=
  scanAll matchSrv3At s.length s

/-- All format-B matches of the payload, in encounter order. -/
def scanStd (s : List Char) : List RawSeg :=
  scanAll matchStdAt s.length s

/-! ### IEEE-754 binary64 model of the decimal-seconds conversion

JavaScript numbers are binary64 doubles, so `parseFloat(a)` rounds the exact
decimal value of the attribute to the nearest double (ties to even) and `* 1000`
rounds the exact product the same way; `Math.floor` of the resulting double is
exact.  A non-negative double in the normal range is a value `m * 2^e`; the
model below computes round-to-nearest-even on exact rationals `a / b`
represented as pairs of naturals.  Subnormals, overflow to infinity and NaN are
outside the range of caption timestamp attributes and are not modelled (an
all-dots attribute, NaN in JS, is embedded as 0; no claim touches it).  The
model was cross-checked value-by-value against binary64 reference results for
the attribute shapes that occur here. -/

/-- Fuelled floor of log2; the fuel only bounds the recursion depth
(`log2 n` steps), so passing `n` itself is always enough. -/
def natLog2 : Nat → Nat → Nat
  | 0, _ => 0
  | fuel + 1, n => if n ≤ 1 then 0 else natLog2 fuel (n / 2) + 1

/-- Floor of log2 of a positive natural. -/
def nlog2 (n : Nat) : Nat :=
  natLog2 n n

/-- Least `j` (at least the starting `j`) with `a * 2^j ≥ b`; fuel `b` is
ample since at most `log2 b + 1` steps are needed. -/
def leastShift (a b : Nat) : Nat → Nat → Nat
  | 0, j => j
  | fuel + 1, j => if b ≤ a * 2 ^ j then j else leastShift a b fuel (j + 1)

/-- Floor of log2 of the positive rational `a / b`: for `a ≥ b` it is the
floor log2 of the integer quotient; for `a < b` it is `-j` for the least
`j ≥ 1` with `a * 2^j ≥ b`. -/
def floorLog2 (a b : Nat) : Int :=
  if b ≤ a then (nlog2 (a / b) : Int)
  else -((leastShift a b b 1 : Nat) : Int)

/-- Round the non-negative fraction `num / den` to the nearest integer, ties
to even. -/
def roundHalfEvenFrac (num den : Nat) : Nat :=
  let n := num / den
  let r := num % den
  if 2 * r < den then n
  else if den < 2 * r then n + 1
  else if n % 2 = 0 then n else n + 1

/-- A non-negative double value `m * 2^e` (0 is `⟨0, 0⟩`). -/
structure DFloat where
  m : Nat
  e : Int
deriving Repr, DecidableEq

/-- Round the non-negative rational `a / b` to the nearest binary64 value:
the exponent places the mantissa in `[2^52, 2^53)` and the mantissa is
rounded half-to-even.  When rounding carries the mantissa up to `2^53` the
represented value is still the correctly rounded one. -/
def roundDoubleRat (a b : Nat) : DFloat :=
  if a = 0 then ⟨0, 0⟩
  else
    let e : Int := floorLog2 a b - 52
    let m :=
      if 0 ≤ e then roundHalfEvenFrac a (b * 2 ^ e.toNat)
      else roundHalfEvenFrac (a * 2 ^ (-e).toNat) b
    ⟨m, e⟩

/-- The double product `d * 1000` (1000 is exactly representable, so this is
the correctly rounded exact product). -/
def dfloatTimes1000 (d : DFloat) : DFloat :=
  if 0 ≤ d.e then roundDoubleRat (d.m * 1000 * 2 ^ d.e.toNat) 1
  else roundDoubleRat (d.m * 1000) (2 ^ (-d.e).toNat)

/-- `Math.floor` of a non-negative double. -/
def dfloatFloor (d : DFloat) : Nat :=
  if 0 ≤ d.e then d.m * 2 ^ d.e.toNat else d.m / 2 ^ (-d.e).toNat

/-- Exact value of the decimal prefix `parseFloat` reads from an attribute of
the class `[\d.]+`, as a numerator/denominator pair: integer digits, an
optional dot, then fractional digits (`parseFloat` stops at a second dot).
An attribute with no digit at all (only dots) is NaN in JS and embedded
as 0. -/
def parseFloatExact (a : List Char) : Nat × Nat :=
  let intPart := a.takeWhile jsDigit
  let rest := a.drop intPart.length
  match rest with
  | '.' :: afterDot =>
    let frac := afterDot.takeWhile jsDigit
    (digitsToNat intPart * 10 ^ frac.length + digitsToNat frac, 10 ^ frac.length)
  | _ => (digitsToNat intPart, 1)

/-- `Math.floor(parseFloat(a) * 1000)` in binary64 semantics: round the
decimal value to the nearest double, multiply by 1000 with rounding, floor.
Because of double rounding this can differ from the exact
`⌊value * 1000⌋` — `parseFloat('1.001') * 1000` is `1000.9999999999999`,
so `"1.001"` converts to 1000, not 1001. -/
def parseFloatMs (a : List Char) : Nat :=
  let v := parseFloatExact a
  dfloatFloor (dfloatTimes1000 (roundDoubleRat v.1 v.2))

/-- A parsed timed segment. -/
structure TimedSegment where
  text : String
  offset : Nat
  duration : Nat
deriving Repr, DecidableEq

/-- Format-A segment construction: `parseInt` on the integer-millisecond
attributes, normalization of the payload, and the `if (text)` guard that
drops segments whose normalized text is empty. -/
def mkSegA (m : RawSeg) : Option TimedSegment :=
  let text := normalizeSegText m.body
  if text = "" then none
  else some ⟨text, digitsToNat m.startAttr, digitsToNat m.durAttr⟩

/-- Format-B segment construction: decimal-second attributes floored to
milliseconds after scaling by 1000, same emptiness guard. -/
def mkSegB (m : RawSeg) : Option TimedSegment :=
  let text := normalizeSegText m.body
  if text = "" then none
  else some ⟨text, parseFloatMs m.startAttr, parseFloatMs m.durAttr⟩

/-- Extraction of the segment list from the raw payload (`route.ts` lines
274–304): format A is attempted first; `isSrv3` becomes true as soon as any
format-A tag matches (even if its text is dropped), and format B runs exactly
when no format-A tag matched. -/
def extractSegments (xml : String) : List TimedSegment :=
  let aMatches := scanSrv3 xml.data
  if aMatches.isEmpty then (scanStd xml.data).filterMap mkSegB
  else aMatches.filterMap mkSegA

/-! ## Transcript assembly (`route.ts` lines 306–323) -/

/-- Plain text: segment texts joined by one space. -/
def plainTextOf (segs : List TimedSegment) : String :=
  String.intercalate " " (segs.map TimedSegment.text)

/-- One timestamped line: `[MM:SS] text`, minutes and seconds derived from
`Math.floor(offset / 1000)` and zero-padded to two digits. -/
def lineOf (s : TimedSegment) : String :=
  let totalSeconds := s.offset / 1000
  let mins := totalSeconds / 60
  let secs := totalSeconds % 60
  "[" ++ padStart2 (Nat.repr mins) ++ ":" ++ padStart2 (Nat.repr secs) ++ "] " ++ s.text

/-- Timestamped text: one line per segment, joined by newlines. -/
def timestampedTextOf (segs : List TimedSegment) : String :=
  String.intercalate "\n" (segs.map lineOf)

/-- Assembled transcript of the endpoint. -/
structure TranscriptOut where
  plainText : String
  timestampedText : String
  language : String
deriving Repr, DecidableEq

/-- Tail of `fetchTranscript` in `route.ts`: throw `NoSegmentsExtracted` when
no non-empty segment was produced, otherwise assemble both views; the language
is `selectedTrack.languageCode || 'auto'`. -/
def buildTranscript (xml : String) (trackLang : String) : Except String TranscriptOut :=
  let segments := extractSegments xml
  if segments.isEmpty then Except.error "No transcript segments could be extracted"
  else
    Except.ok
      ⟨plainTextOf segments, timestampedTextOf segments,
        if trackLang = "" then "auto" else trackLang⟩

/-! ## Caption-track marker extraction (`route.ts` lines 229–249) -/

/-- The JSON-array marker literal `"captionTracks":`. -/
def captionMarker : List Char :=
  ("\"captionTracks\":").data

/-- The literal `playerCaptionsTracklistRenderer` of the alternative
pattern. -/
def rendererLit : List Char :=
  ("playerCaptionsTracklistRenderer").data

/-- Match attempt of `"captionTracks":\s*(\[.*?\])` at one position: the
marker literal, optional whitespace (which may cross newlines), `[`, then the
shortest run of non-line-terminator characters up to a `]`.  The capture
includes the brackets.  A line terminator before the first `]` makes the
attempt fail (JS `.` does not match line terminators). -/
def matchMarkerAt (s : List Char) : Option String := do
  let s ← stripLit captionMarker s
  let s := s.dropWhile jsSpace
  let s ← stripLit ['['] s
  let run := s.takeWhile (fun c => jsDotChar c && c ≠ ']')
  match s.drop run.length with
  | ']' :: _ => pure (String.mk ('[' :: (run ++ [']'])))
  | _ => none

/-- First match of the plain pattern over the whole body. -/
def findCaptionJson (html : String) : Option String :=
  scanOpt matchMarkerAt html.data

/-- Lazy gap of the alternative pattern: starting right after the renderer
literal, try the marker pattern at each position, advancing only across
non-line-terminator characters (the gap is `.*?`). -/
def lazyFindMarker : List Char → Option String
  | [] => none
  | c :: cs =>
    match matchMarkerAt (c :: cs) with
    | some r => some r
    | none => if jsDotChar c then lazyFindMarker cs else none

/-- Match attempt of
`playerCaptionsTracklistRenderer.*?"captionTracks":\s*(\[.*?\])` at one
position. -/
def matchAltAt (s : List Char) : Option String := do
  let s ← stripLit rendererLit s
  lazyFindMarker s

/-- First match of the alternative pattern over the whole body. -/
def findCaptionAlt (html : String) : Option String :=
  scanOpt matchAltAt html.data

/-- Track-metadata extraction flow of `fetchTranscript` (`route.ts` lines
229–249), parameterized by `JSON.parse` specialised to a track array
(`none` embeds a thrown parse error).  When the first pattern fails but the
alternative succeeds, the source leaves `captionTracksJson = ''` (the
`captionMatch ? captionMatch[1] : ''` expression), so the parse runs on the
empty string. -/
def extractCaptionTracks (jsonParse : String → Option (List CaptionTrack))
    (html : String) : Except String (List CaptionTrack) :=
  match findCaptionJson html with
  | some j =>
    match jsonParse j with
    | none => Except.error "Failed to parse caption tracks data"
    | some tracks =>
      if tracks.isEmpty then Except.error "No caption tracks found for this video"
      else Except.ok tracks
  | none =>
    match findCaptionAlt html with
    | none =>
      Except.error "No captions available for this video. The video may not have subtitles."
    | some _ =>
      match jsonParse "" with
      | none => Except.error "Failed to parse caption tracks data"
      | some tracks =>
        if tracks.isEmpty then Except.error "No caption tracks found for this video"
        else Except.ok tracks

/-! ## The POST handler (`route.ts` lines 10–173) -/

/-- Client-supplied transcript payload (`clientTranscript` body field). -/
structure ClientTranscript where
  videoId : Option String := none
  text : Option String := none
  timestamped : Option String := none
  language : Option String := none
  title : Option String := none
  channel : Option String := none
deriving Repr, DecidableEq

/-- Account profile row as read from the credits store. -/
structure Profile where
  plan : String
  credits_remaining : Int
deriving Repr, DecidableEq

/-- External observable actions of one request, in order.  The profile reads
of the credits store are not network work in the sense of the spec (metadata
fetch, caption acquisition, summary) and are not traced. -/
inductive Effect where
  | fetchMetadata
  | fetchTranscriptNet
  | callGemini
  | callAnthropic
  | insertRecord (transcriptText : String) (status : String)
  | updateCredits (newValue : Int)
deriving Repr, DecidableEq

/-- Environment of one request: the parsed body, the outcome of
authentication, the rows the store would return, and the outcomes the
network calls would produce if issued. -/
structure Env where
  videoUrl : Option String
  clientTranscript : Option ClientTranscript
  withSummary : Bool
  userId : Option String
  profile : Option Profile
  metadataTitle : String
  metadataChannel : String
  transcriptResult : Except String TranscriptOut
  geminiKey : Option String
  anthropicKey : Option String
  summaryResult : Except String String
  insertedId : Option String
  currentProfile : Option Profile
deriving Repr

/-- Response value: the HTTP status and the body fields the claims mention. -/
structure Response where
  status : Nat
  error : Option String := none
  fallbackToClient : Bool := false
  recordId : Option String := none
  videoId : Option String := none
  transcriptText : Option String := none
  transcriptTimestamped : Option String := none
  transcriptLanguage : Option String := none
  wordCount : Option Nat := none
  summary : Option String := none
  summaryError : Option String := none
deriving Repr, DecidableEq

/-- Number of maximal whitespace runs in the character list (state flag:
currently inside a run). -/
def wsRuns : Bool → List Char → Nat
  | _, [] => 0
  | inWs, c :: cs =>
    if jsSpace c then (if inWs then wsRuns true cs else 1 + wsRuns true cs)
    else wsRuns false cs

/-- `plainText.split(/\s+/).length`: one more than the number of maximal
whitespace runs (JS split yields leading/trailing empty fragments, and `[""]`
on the empty string). -/
def jsSplitWsCount (s : String) : Nat :=
  wsRuns false s.data + 1

/-- `clientTranscript?.videoId || extractVideoId(videoUrl)`: the client field
wins when truthy; otherwise `extractVideoId` runs on `videoUrl`, which throws
a TypeError (caught by the outer handler as a 500) when `videoUrl` is
`undefined`. -/
def resolveVideoId (ct : Option ClientTranscript) (videoUrl : Option String) :
    Except String (Option String) :=
  let ctid := ct.bind ClientTranscript.videoId
  if jsTruthy ctid then Except.ok ctid
  else
    match videoUrl with
    | some u => Except.ok (extractVideoId u)
    | none => Except.error "Cannot read properties of undefined"

/-- Summary-key guard `key && key !== 'placeholder'`. -/
def keyOk : Option String → Bool
  | none => false
  | some s => s ≠ "" && s ≠ "placeholder"

/-- The summary stage (`route.ts` lines 86–104): provider selection by
configured key, the thrown backend error captured as `summaryError`
(`e.message || 'Unknown summary error'`), and the no-key case annotated as a
value.  Returns (summary, summaryError, effects). -/
def summaryStage (env : Env) (plainText : String) :
    Option String × Option String × List Effect :=
  if env.withSummary && plainText ≠ "" then
    if keyOk env.geminiKey then
      match env.summaryResult with
      | Except.ok s => (some s, none, [Effect.callGemini])
      | Except.error e =>
        (none, some (if e = "" then "Unknown summary error" else e), [Effect.callGemini])
    else if keyOk env.anthropicKey then
      match env.summaryResult with
      | Except.ok s => (some s, none, [Effect.callAnthropic])
      | Except.error e =>
        (none, some (if e = "" then "Unknown summary error" else e), [Effect.callAnthropic])
    else (none, some "No AI key configured (GEMINI_API_KEY or ANTHROPIC_API_KEY)", [])
  else (none, none, [])

/-- The persistence stage (`route.ts` lines 109–149): when authenticated,
insert the completed record, then read `credits_remaining` again and
decrement it only when the value read is strictly positive.  Returns
(transcriptionId, effects). -/
def persistStage (env : Env) (plainText : String) : Option String × List Effect :=
  match env.userId with
  | none => (none, [])
  | some _ =>
    let insertEffs := [Effect.insertRecord plainText "completed"]
    let decEffs :=
      match env.currentProfile with
      | some q =>
        if q.credits_remaining > 0 then [Effect.updateCredits (q.credits_remaining - 1)]
        else []
      | none => []
    (env.insertedId, insertEffs ++ decEffs)

/-- Common tail of the handler once a transcript is in hand: summary stage,
word count, persistence, and the 200 response (`route.ts` lines 86–164). -/
def finishRequest (env : Env) (vid : Option String)
    (plainText timestamped language : String) (effs0 : List Effect) :
    Response × List Effect :=
  let sres := summaryStage env plainText
  let pres := persistStage env plainText
  ({ status := 200,
     recordId := pres.1,
     videoId := vid,
     transcriptText := some plainText,
     transcriptTimestamped := some timestamped,
     transcriptLanguage := some language,
     wordCount := some (jsSplitWsCount plainText),
     summary := sres.1,
     summaryError := sres.2.1 }, effs0 ++ sres.2.2 ++ pres.2)

/-- Credit gate of `route.ts` lines 36–49: an authenticated free-plan profile
with `credits_remaining <= 0` is rejected. -/
def quotaHit (env : Env) : Bool :=
  env.userId.isSome &&
    (match env.profile with
     | some p => p.plan = "free" && p.credits_remaining ≤ 0
     | none => false)

/-- The POST handler of `route.ts`, straight-line over the environment.  The
result is the response together with the trace of external actions taken. -/
def postHandler (env : Env) : Response × List Effect :=
  if !(jsTruthy env.videoUrl || env.clientTranscript.isSome) then
    ({ status := 400, error := some "videoUrl or clientTranscript is required" }, [])
  else
    match resolveVideoId env.clientTranscript env.videoUrl with
    | Except.error e => ({ status := 500, error := some e }, [])
    | Except.ok vid =>
      if !jsTruthy vid then
        ({ status := 400, error := some "Invalid YouTube URL" }, [])
      else
        if quotaHit env then
          ({ status := 402,
             error := some "Monthly free limit reached. Upgrade to Pro for more." }, [])
        else
          let ctText := env.clientTranscript.bind ClientTranscript.text
          if jsTruthy ctText then
            let ct := env.clientTranscript.getD {}
            let plainText := ctText.getD ""
            let timestamped := jsOr ct.timestamped ""
            let language := jsOr ct.language "auto"
            finishRequest env vid plainText timestamped language []
          else
            let effs0 := [Effect.fetchMetadata, Effect.fetchTranscriptNet]
            match env.transcriptResult with
            | Except.error msg =>
              ({ status := 422, error := some msg, fallbackToClient := true }, effs0)
            | Except.ok t =>
              finishRequest env vid t.plainText t.timestampedText t.language effs0

/-! ## Theorems -/

/-- C1: the Track Selector claim.  The claimed policy (manual preferred-language
track first, then any preferred-language track, then the head of the list) is
the evident intent of the selector — its comments read "Try manual captions
first" and "If still on default, try auto-generated in preferred languages" —
but the guard for the second scan is the reference equality
`selectedTrack === tracks[0]`, which also holds when loop 1 deliberately chose
the manual track at index 0.  On `[{en, manual}, {pt, auto}]` loop 1 picks the
manual `en` track (index 0), the second scan then runs anyway and replaces it
with the auto `pt` track, contradicting the claimed rule 1 (which keeps
`{en, manual}`).  The claim's own two examples do hold, and the `route.ts`
variant of the selector ignores the preference order altogether. -/
theorem c1_track_selector_bug :
    selectTrack [⟨"en", ""⟩, ⟨"pt", "asr"⟩] = some ⟨"pt", "asr"⟩ ∧
    specSelectTrack [⟨"en", ""⟩, ⟨"pt", "asr"⟩] = some ⟨"en", ""⟩ ∧
    selectTrack [⟨"en", "asr"⟩, ⟨"pt", ""⟩, ⟨"es", ""⟩] = some ⟨"pt", ""⟩ ∧
    selectTrack [⟨"ja", "asr"⟩] = some ⟨"ja", "asr"⟩ ∧
    selectTrackRoute [⟨"fr", ""⟩, ⟨"pt", ""⟩] = some ⟨"fr", ""⟩ := by
  decide

/-- C3 counterexample: the claim says the normalization decodes the five
standard XML entities (including `apos`) and collapses internal newlines to
spaces; the code's normalization does neither — on the payload `a\nb&apos;`
it returns the input unchanged, while the claimed operations produce
`a b'`. -/
theorem c3_counterexample :
    normalizeSegText ("a\nb&apos;").data = "a\nb&apos;" ∧
    specNormalizeText ("a\nb&apos;").data = "a b" ++ aposChar ∧
    normalizeSegText ("a\nb&apos;").data ≠ specNormalizeText ("a\nb&apos;").data := by
  decide

/-- C3 amended: the normalization strips nested markup, trims, and then
decodes `&amp;` `&lt;` `&gt;` `&quot;` `&nbsp;` and the numeric references
`&#39;`, `&#x27;` and decimal `&#NNN;`; the literal `&apos;` entity is not
decoded and internal newlines are preserved. -/
theorem c3_amended :
    (∀ raw : List Char,
        normalizeSegText raw = decodeHtmlEntities (String.mk (trimJs (stripMarkup raw.length raw)))) ∧
    decodeHtmlEntities "&amp;" = "&" ∧
    decodeHtmlEntities "&lt;" = "<" ∧
    decodeHtmlEntities "&gt;" = ">" ∧
    decodeHtmlEntities "&quot;" = "\"" ∧
    decodeHtmlEntities "&#39;" = aposChar ∧
    decodeHtmlEntities "&#x27;" = aposChar ∧
    decodeHtmlEntities "&nbsp;" = " " ∧
    decodeHtmlEntities "&#65;" = "A" ∧
    decodeHtmlEntities "&apos;" = "&apos;" ∧
    decodeHtmlEntities "a\nb" = "a\nb" ∧
    normalizeSegText ("<i>x</i> y ").data = "x y" := by
  refine ⟨fun raw => rfl, ?_⟩
  decide

/-- A format-A segment constructor only yields segments with non-empty text
(the `if (text)` guard). -/
theorem mkSegA_text_ne {m : RawSeg} {s : TimedSegment} (h : mkSegA m = some s) :
    s.text ≠ "" := by
  by_cases hc : normalizeSegText m.body = ""
  · simp [mkSegA, hc] at h
  · simp [mkSegA, hc] at h
    subst h
    exact hc

/-- A format-B segment constructor only yields segments with non-empty text. -/
theorem mkSegB_text_ne {m : RawSeg} {s : TimedSegment} (h : mkSegB m = some s) :
    s.text ≠ "" := by
  by_cases hc : normalizeSegText m.body = ""
  · simp [mkSegB, hc] at h
  · simp [mkSegB, hc] at h
    subst h
    exact hc

/-- C4: a segment whose text is empty after normalization is dropped (every
extracted segment has non-empty text); when no non-empty segment results the
parser fails with the `NoSegmentsExtracted` error instead of returning an
empty transcript; and the whitespace-only payload
`<text start="0" dur="1">   </text>` yields zero segments and that error. -/
theorem c4_empty_segments :
    (∀ (xml : String) (s : TimedSegment), s ∈ extractSegments xml → s.text ≠ "") ∧
    (∀ (xml : String) (lang : String), extractSegments xml = [] →
        buildTranscript xml lang = Except.error "No transcript segments could be extracted") ∧
    extractSegments "<text start=\"0\" dur=\"1\">   </text>" = [] ∧
    buildTranscript "<text start=\"0\" dur=\"1\">   </text>" "en" =
      Except.error "No transcript segments could be extracted" := by
  refine ⟨?_, ?_, by decide, by rfl⟩
  · intro xml s hs
    simp only [extractSegments] at hs
    split at hs
    · obtain ⟨m, _, hm⟩ := List.mem_filterMap.mp hs
      exact mkSegB_text_ne hm
    · obtain ⟨m, _, hm⟩ := List.mem_filterMap.mp hs
      exact mkSegA_text_ne hm
  · intro xml lang h
    unfold buildTranscript
    simp [h]

/-- C4 witness: the non-emptiness guarantee at a concrete extracted segment
and the error at the concrete whitespace-only payload. -/
theorem c4_witness :
    (⟨"Hello", 1000, 500⟩ : TimedSegment) ∈
        extractSegments "<p t=\"1000\" d=\"500\">Hello</p>" ∧
    TimedSegment.text ⟨"Hello", 1000, 500⟩ ≠ "" ∧
    buildTranscript "<text start=\"0\" dur=\"1\">   </text>" "en" =
      Except.error "No transcript segments could be extracted" :=
  ⟨by decide,
   c4_empty_segments.1 "<p t=\"1000\" d=\"500\">Hello</p>" ⟨"Hello", 1000, 500⟩ (by decide),
   c4_empty_segments.2.1 "<text start=\"0\" dur=\"1\">   </text>" "en" (by decide)⟩

/-- Modelled from the spec: one timestamped line as the claim words it —
`[MM:SS] text`, minutes and seconds derived from `floor(offsetMillis / 1000)`,
each zero-padded to two digits, minutes unbounded. -/
def specLineOf (s : TimedSegment) : String :=
  "[" ++ padStart2 (Nat.repr (s.offset / 1000 / 60)) ++ ":" ++
    padStart2 (Nat.repr (s.offset / 1000 % 60)) ++ "] " ++ s.text

/-- C5: the Transcript Assembler joins segment texts with a single space,
renders one `[MM:SS] text` line per segment with minutes and seconds derived
from `floor(offsetMillis/1000)` and zero-padded to two digits, leaves minutes
unbounded beyond two digits (offset 6 000 000 ms renders as `[100:00]`), and
produces exactly the claimed output on the Hello/World example. -/
theorem c5_assembler (segs : List TimedSegment) (h : segs ≠ []) :
    plainTextOf segs = String.intercalate " " (segs.map TimedSegment.text) ∧
    timestampedTextOf segs = String.intercalate "\n" (segs.map specLineOf) ∧
    buildTranscript "<p t=\"1000\" d=\"500\">Hello</p><p t=\"2000\" d=\"500\">World</p>" "en" =
      Except.ok ⟨"Hello World", "[00:01] Hello\n[00:02] World", "en"⟩ ∧
    lineOf ⟨"x", 6000000, 0⟩ = "[100:00] x" ∧
    plainTextOf [⟨"Hello", 1000, 500⟩, ⟨"World", 2000, 500⟩] = "Hello World" ∧
    timestampedTextOf [⟨"Hello", 1000, 500⟩, ⟨"World", 2000, 500⟩] =
      "[00:01] Hello\n[00:02] World" := by
  refine ⟨rfl, ?_, by rfl, by decide, by decide, by decide⟩
  have hfun : lineOf = specLineOf := funext fun s => rfl
  rw [timestampedTextOf, hfun]

/-- C5 witness at a concrete non-empty segment list. -/
theorem c5_witness :
    plainTextOf [⟨"Hello", 1000, 500⟩] =
        String.intercalate " " ([(⟨"Hello", 1000, 500⟩ : TimedSegment)].map TimedSegment.text) ∧
    lineOf ⟨"x", 6000000, 0⟩ = "[100:00] x" :=
  ⟨(c5_assembler [⟨"Hello", 1000, 500⟩] (by decide)).1,
   (c5_assembler [⟨"Hello", 1000, 500⟩] (by decide)).2.2.2.1⟩

/-! ## Decimal-seconds conversion facts -/

/-- Modelled from the spec: the exact numeric value of a decimal-seconds
attribute, as the claim's "flooring after multiplying by 1000" reads it. -/
def decimalValue (intDs fracDs : List Char) : ℚ :=
  (digitsToNat intDs : ℚ) + (digitsToNat fracDs : ℚ) / 10 ^ fracDs.length

/-- C2 counterexample: the attribute `1.001` converts to 1000 under the
program's binary64 arithmetic (`1.001 * 1000` is `1000.9999999999999`), while
exact flooring after multiplying by 1000 — the claim's conversion rule —
gives 1001. -/
theorem c2_counterexample :
    parseFloatMs ("1.001").data = 1000 ∧
    ⌊decimalValue ['1'] ['0', '0', '1'] * 1000⌋ = (1001 : ℤ) ∧
    (parseFloatMs ("1.001").data : ℤ) ≠ ⌊decimalValue ['1'] ['0', '0', '1'] * 1000⌋ := by
  have h1 : parseFloatMs ("1.001").data = 1000 := by decide
  have hd1 : digitsToNat ['1'] = 1 := by decide
  have hd2 : digitsToNat ['0', '0', '1'] = 1 := by decide
  have hv : decimalValue ['1'] ['0', '0', '1'] * 1000 = (1001 : ℚ) := by
    rw [decimalValue, hd1, hd2]
    norm_num
  have h2 : ⌊decimalValue ['1'] ['0', '0', '1'] * 1000⌋ = (1001 : ℤ) := by
    rw [hv, show (1001 : ℚ) = ((1001 : ℤ) : ℚ) by norm_num, Int.floor_intCast]
  refine ⟨h1, h2, ?_⟩
  rw [h1, h2]
  decide

/-- C2 amended: the Segment Parser auto-detects the wire format without a
hint — format A is attempted first and format B runs exactly when zero
format-A tags matched — and format B start and duration attributes are
converted by `Math.floor(parseFloat(v) * 1000)` in binary64 arithmetic.
That agrees with exact flooring after multiplying by 1000 on many values
(3.5 → 3500, 0.25 → 250, 1.5 → 1500, 5 → 5000) but not on all: double
rounding sends 1.001 to 1000, 1.015 to 1014 and 1.003 to 1002, each one
less than the exact conversion. -/
theorem c2_format_autodetect :
    (∀ xml : String, scanSrv3 xml.data ≠ [] →
        extractSegments xml = (scanSrv3 xml.data).filterMap mkSegA) ∧
    (∀ xml : String, scanSrv3 xml.data = [] →
        extractSegments xml = (scanStd xml.data).filterMap mkSegB) ∧
    parseFloatMs ("3.5").data = 3500 ∧
    parseFloatMs ("0.25").data = 250 ∧
    parseFloatMs ("1.5").data = 1500 ∧
    parseFloatMs ("5").data = 5000 ∧
    parseFloatMs ("1.001").data = 1000 ∧
    parseFloatMs ("1.015").data = 1014 ∧
    parseFloatMs ("1.003").data = 1002 ∧
    extractSegments "<p t=\"1\" d=\"2\">A</p><text start=\"3.5\" dur=\"0.25\">B</text>" =
      [⟨"A", 1, 2⟩] ∧
    extractSegments "<text start=\"3.5\" dur=\"0.25\">B</text>" = [⟨"B", 3500, 250⟩] := by
  refine ⟨?_, ?_, by decide, by decide, by decide, by decide, by decide, by decide, by decide,
    by decide, by decide⟩
  · intro xml h
    simp only [extractSegments]
    rw [if_neg (by simp [List.isEmpty_iff, h])]
  · intro xml h
    simp only [extractSegments]
    rw [if_pos (by simp [List.isEmpty_iff, h])]

/-- C2 witness: the auto-detection instantiated at a concrete format-B
payload and a concrete format-A payload. -/
theorem c2_witness :
    extractSegments "<text start=\"3.5\" dur=\"0.25\">B</text>" =
        (scanStd ("<text start=\"3.5\" dur=\"0.25\">B</text>").data).filterMap mkSegB ∧
    extractSegments "<p t=\"1\" d=\"2\">A</p>" =
        (scanSrv3 ("<p t=\"1\" d=\"2\">A</p>").data).filterMap mkSegA :=
  ⟨c2_format_autodetect.2.1 "<text start=\"3.5\" dur=\"0.25\">B</text>" (by decide),
   c2_format_autodetect.1 "<p t=\"1\" d=\"2\">A</p>" (by decide)⟩

/-! ## Marker-extraction facts -/

/-- Concrete body with the marker in the plain location. -/
def htmlPlainEx : String :=
  "\x7b\"captionTracks\": [\x7b\"languageCode\":\"en\"\x7d]\x7d"

/-- Concrete body with the marker nested under the renderer object. -/
def htmlNestedEx : String :=
  "\x7b\"playerCaptionsTracklistRenderer\":\x7b\"captionTracks\":[\x7b\"languageCode\":\"en\"\x7d]\x7d\x7d"

/-- The span both bodies carry. -/
def spanEx : String := "[\x7b\"languageCode\":\"en\"\x7d]"

/-- C6: the adapter obtains track metadata by a regular-expression scan for
the `captionTracks` JSON-array marker; the marker is found whether it sits in
the plain position or nested under `playerCaptionsTracklistRenderer` (the
first pattern already matches in both structural locations, which is why the
dead alternative branch never reaches `JSON.parse('')`); and whenever parsing
of the matched span throws, the flow fails closed with an error — a
successful result only ever comes from a successfully parsed span. -/
theorem c6_marker_extraction :
    findCaptionJson htmlPlainEx = some spanEx ∧
    findCaptionJson htmlNestedEx = some spanEx ∧
    (∀ (jsonParse : String → Option (List CaptionTrack)) (html : String)
        (tracks : List CaptionTrack),
        extractCaptionTracks jsonParse html = Except.ok tracks →
        ∃ j, (findCaptionJson html = some j ∨ j = "") ∧
          jsonParse j = some tracks ∧ tracks ≠ []) ∧
    (∀ jsonParse : String → Option (List CaptionTrack),
        jsonParse spanEx = none →
        extractCaptionTracks jsonParse htmlPlainEx =
            Except.error "Failed to parse caption tracks data" ∧
        extractCaptionTracks jsonParse htmlNestedEx =
            Except.error "Failed to parse caption tracks data") := by
  have hplain : findCaptionJson htmlPlainEx = some spanEx := by decide
  have hnested : findCaptionJson htmlNestedEx = some spanEx := by decide
  refine ⟨hplain, hnested, ?_, ?_⟩
  · intro jsonParse html tracks h
    unfold extractCaptionTracks at h
    split at h
    · next j hj =>
        split at h
        · cases h
        · next ts hp =>
            split at h
            · cases h
            · next hts =>
                cases h
                exact ⟨j, Or.inl hj, hp, by simpa [List.isEmpty_iff] using hts⟩
    · next hj =>
        split at h
        · cases h
        · split at h
          · cases h
          · next ts hp =>
              split at h
              · cases h
              · next hts =>
                  cases h
                  exact ⟨"", Or.inr rfl, hp, by simpa [List.isEmpty_iff] using hts⟩
  · intro jsonParse hp
    constructor
    · simp only [extractCaptionTracks, hplain, hp]
    · simp only [extractCaptionTracks, hnested, hp]

/-- C6 witness: a parse function that always throws makes both concrete
bodies fail closed. -/
theorem c6_witness :
    extractCaptionTracks (fun _ => none) htmlPlainEx =
        Except.error "Failed to parse caption tracks data" ∧
    extractCaptionTracks (fun _ => none) htmlNestedEx =
        Except.error "Failed to parse caption tracks data" :=
  c6_marker_extraction.2.2.2 (fun _ => none) rfl

/-! ## Entity-resolver facts -/

/-- A successful literal match consumes exactly the literal. -/
theorem stripLit_length {lit s r : List Char} (h : stripLit lit s = some r) :
    s.length = lit.length + r.length := by
  induction lit generalizing s with
  | nil => cases h; simp
  | cons p ps ih =>
    cases s with
    | nil => cases h
    | cons c cs =>
      unfold stripLit at h
      split at h
      · have := ih h
        simp [this]
        omega
      · cases h

/-- A shape alternative needs at least its literal plus eleven characters. -/
theorem tryShapeLit_none_short {lit s : List Char} (h : s.length < lit.length + 11) :
    tryShapeLit lit s = none := by
  unfold tryShapeLit
  cases hs : stripLit lit s with
  | none => rfl
  | some rest =>
    have hlen := stripLit_length hs
    have hr : rest.length < 11 := by omega
    have hne : (rest.take 11).length ≠ 11 := by
      rw [List.length_take]
      omega
    simp [hne]
    intro hc
    omega

/-- No alternative of the URL-shape pattern fits in fewer than 13
characters. -/
theorem tryShapeAt_none_short {s : List Char} (h : s.length < 13) :
    tryShapeAt s = none := by
  have h1 : tryShapeLit ['v', '='] s = none :=
    tryShapeLit_none_short (by simp only [List.length_cons, List.length_nil]; omega)
  have h2 : tryShapeLit ['/', 'v', '/'] s = none :=
    tryShapeLit_none_short (by simp only [List.length_cons, List.length_nil]; omega)
  have h3 : tryShapeLit ['y', 'o', 'u', 't', 'u', '.', 'b', 'e', '/'] s = none :=
    tryShapeLit_none_short (by simp only [List.length_cons, List.length_nil]; omega)
  have h4 : tryShapeLit ['/', 'e', 'm', 'b', 'e', 'd', '/'] s = none :=
    tryShapeLit_none_short (by simp only [List.length_cons, List.length_nil]; omega)
  simp only [tryShapeAt, h1, h2, h3, h4]

/-- The URL-shape pattern cannot match anywhere in an input shorter than 13
characters — in particular not in a bare 11-character identifier. -/
theorem searchShapes_none_short : ∀ s : List Char, s.length < 13 → searchShapes s = none := by
  intro s
  induction s with
  | nil => intro _; rfl
  | cons c cs ih =>
    intro h
    unfold searchShapes scanOpt
    rw [tryShapeAt_none_short h]
    exact ih (by simp at h ⊢; omega)

/-- C7 amended: for every valid 11-character identifier, each of the four
recognized URL shapes resolves to that identifier; an input that is exactly a
bare 11-character identifier resolves to itself; and an input matching
neither pattern yields `none` rather than an exception.  (The original claim
additionally asserted trimming of surrounding whitespace, which the resolver
does not do — see the counterexample.) -/
theorem c7_amended (l : List Char) (h11 : l.length = 11) (hall : l.all isIdChar = true) :
    extractVideoId (String.mk (("https://www.youtube.com/watch?v=").data ++ l)) =
        some (String.mk l) ∧
    extractVideoId (String.mk (("https://www.youtube.com/v/").data ++ l)) =
        some (String.mk l) ∧
    extractVideoId (String.mk (("https://youtu.be/").data ++ l)) = some (String.mk l) ∧
    extractVideoId (String.mk (("https://www.youtube.com/embed/").data ++ l)) =
        some (String.mk l) ∧
    extractVideoId (String.mk l) = some (String.mk l) ∧
    (∀ url : String, searchShapes url.data = none →
        (url.data.length = 11 && url.data.all isIdChar) = false →
        extractVideoId url = none) := by
  have htake : l.take 11 = l := List.take_of_length_le (by omega)
  refine ⟨?_, ?_, ?_, ?_, ?_, ?_⟩
  · unfold extractVideoId
    have hs : searchShapes (("https://www.youtube.com/watch?v=").data ++ l) =
        some (String.mk l) := by
      simp only [searchShapes, scanOpt, tryShapeAt, tryShapeLit, stripLit, String.data]
      simp [htake, h11, hall]
    rw [show (String.mk (("https://www.youtube.com/watch?v=").data ++ l)).data =
        ("https://www.youtube.com/watch?v=").data ++ l from rfl, hs]
  · unfold extractVideoId
    have hs : searchShapes (("https://www.youtube.com/v/").data ++ l) = some (String.mk l) := by
      simp only [searchShapes, scanOpt, tryShapeAt, tryShapeLit, stripLit, String.data]
      simp [htake, h11, hall]
    rw [show (String.mk (("https://www.youtube.com/v/").data ++ l)).data =
        ("https://www.youtube.com/v/").data ++ l from rfl, hs]
  · unfold extractVideoId
    have hs : searchShapes (("https://youtu.be/").data ++ l) = some (String.mk l) := by
      simp only [searchShapes, scanOpt, tryShapeAt, tryShapeLit, stripLit, String.data]
      simp [htake, h11, hall]
    rw [show (String.mk (("https://youtu.be/").data ++ l)).data =
        ("https://youtu.be/").data ++ l from rfl, hs]
  · unfold extractVideoId
    have hs : searchShapes (("https://www.youtube.com/embed/").data ++ l) =
        some (String.mk l) := by
      simp only [searchShapes, scanOpt, tryShapeAt, tryShapeLit, stripLit, String.data]
      simp [htake, h11, hall]
    rw [show (String.mk (("https://www.youtube.com/embed/").data ++ l)).data =
        ("https://www.youtube.com/embed/").data ++ l from rfl, hs]
  · unfold extractVideoId
    rw [show (String.mk l).data = l from rfl, searchShapes_none_short l (by omega)]
    simp [h11, hall]
  · intro url hs hcond
    unfold extractVideoId
    rw [hs, hcond]
    simp

/-- C7 counterexample: the resolver does no trimming — a bare identifier
padded with one leading space yields `NotFound`, while the claim says the
identifier is returned after trimming. -/
theorem c7_counterexample : extractVideoId " dQw4w9WgXcQ" = none := by
  decide

/-- C7 witness at the concrete identifier of the spec example. -/
theorem c7_witness :
    extractVideoId "dQw4w9WgXcQ" = some "dQw4w9WgXcQ" ∧
    extractVideoId "https://youtu.be/dQw4w9WgXcQ" = some "dQw4w9WgXcQ" :=
  ⟨(c7_amended ("dQw4w9WgXcQ").data (by decide) (by decide)).2.2.2.2.1,
   (c7_amended ("dQw4w9WgXcQ").data (by decide) (by decide)).2.2.1⟩

/-! ## Handler facts -/

/-- C9: an authenticated free-plan request with no credits left is rejected
with the 402 quota error before any network work — the effect trace is empty,
so no metadata fetch, caption acquisition, summary call, or transcription
record insert happens. -/
theorem c9_quota_rejection (env : Env) (v uid : String) (p : Profile)
    (hguard : (jsTruthy env.videoUrl || env.clientTranscript.isSome) = true)
    (hvid : resolveVideoId env.clientTranscript env.videoUrl = Except.ok (some v))
    (hv : v ≠ "")
    (huser : env.userId = some uid)
    (hprof : env.profile = some p)
    (hplan : p.plan = "free")
    (hcred : p.credits_remaining ≤ 0) :
    postHandler env =
      ({ status := 402,
         error := some "Monthly free limit reached. Upgrade to Pro for more." }, []) := by
  have hq : quotaHit env = true := by
    simp [quotaHit, huser, hprof, hplan, hcred]
  have hjv : jsTruthy (some v) = true := by simp [jsTruthy, hv]
  simp [postHandler, hguard, hvid, hjv, hq]

/-- Concrete environment of an authenticated free-plan account with zero
credits. -/
def envW : Env :=
  { videoUrl := some "https://www.youtube.com/watch?v=dQw4w9WgXcQ",
    clientTranscript := none,
    withSummary := true,
    userId := some "u1",
    profile := some ⟨"free", 0⟩,
    metadataTitle := "T", metadataChannel := "C",
    transcriptResult := Except.ok ⟨"Hello World", "[00:01] Hello", "en"⟩,
    geminiKey := none, anthropicKey := some "k",
    summaryResult := Except.error "boom",
    insertedId := some "rec1",
    currentProfile := some ⟨"free", 0⟩ }

/-- C9 witness at the concrete zero-credit environment. -/
theorem c9_witness :
    postHandler envW =
      ({ status := 402,
         error := some "Monthly free limit reached. Upgrade to Pro for more." }, []) :=
  c9_quota_rejection envW "dQw4w9WgXcQ" "u1" ⟨"free", 0⟩ rfl rfl (by decide)
    rfl rfl rfl (by decide)

/-- C8: once a transcript is obtained the request always completes with
status 200 and the full transcript, whatever the summary stage does; a thrown
backend error is captured as the `summaryError` value (with the
`e.message || 'Unknown summary error'` fallback), and a missing backend key
is annotated as a value as well — the summary stage never aborts the
request. -/
theorem c8_summary_nonfatal (env : Env) (v : String) (t : TranscriptOut)
    (hguard : (jsTruthy env.videoUrl || env.clientTranscript.isSome) = true)
    (hvid : resolveVideoId env.clientTranscript env.videoUrl = Except.ok (some v))
    (hv : v ≠ "")
    (hq : quotaHit env = false)
    (hct : jsTruthy (env.clientTranscript.bind ClientTranscript.text) = false)
    (htr : env.transcriptResult = Except.ok t) :
    (postHandler env).1.status = 200 ∧
    (postHandler env).1.transcriptText = some t.plainText ∧
    (postHandler env).1.transcriptTimestamped = some t.timestampedText ∧
    (postHandler env).1.summary = (summaryStage env t.plainText).1 ∧
    (postHandler env).1.summaryError = (summaryStage env t.plainText).2.1 ∧
    (∀ (env2 : Env) (p e : String), env2.withSummary = true → p ≠ "" →
        env2.summaryResult = Except.error e →
        (keyOk env2.geminiKey = true ∨ keyOk env2.anthropicKey = true) →
        (summaryStage env2 p).1 = none ∧
        (summaryStage env2 p).2.1 = some (if e = "" then "Unknown summary error" else e)) ∧
    (∀ (env2 : Env) (p : String), env2.withSummary = true → p ≠ "" →
        keyOk env2.geminiKey = false → keyOk env2.anthropicKey = false →
        summaryStage env2 p =
          (none, some "No AI key configured (GEMINI_API_KEY or ANTHROPIC_API_KEY)", [])) := by
  have hjv : jsTruthy (some v) = true := by simp [jsTruthy, hv]
  have hmain :
      postHandler env =
        finishRequest env (some v) t.plainText t.timestampedText t.language
          [Effect.fetchMetadata, Effect.fetchTranscriptNet] := by
    simp [postHandler, hguard, hvid, hjv, hq, hct, htr]
  refine ⟨?_, ?_, ?_, ?_, ?_, ?_, ?_⟩
  · rw [hmain]; rfl
  · rw [hmain]; rfl
  · rw [hmain]; rfl
  · rw [hmain]; rfl
  · rw [hmain]; rfl
  · intro env2 p e hws hp hres hkey
    unfold summaryStage
    have hcond : (env2.withSummary && p ≠ "") = true := by simp [hws, hp]
    rw [if_pos hcond]
    rcases hkey with hg | ha
    · rw [if_pos hg, hres]
      exact ⟨rfl, rfl⟩
    · by_cases hg : keyOk env2.geminiKey
      · rw [if_pos hg, hres]
        exact ⟨rfl, rfl⟩
      · rw [if_neg hg, if_pos ha, hres]
        exact ⟨rfl, rfl⟩
  · intro env2 p hws hp hg ha
    unfold summaryStage
    have hcond : (env2.withSummary && p ≠ "") = true := by simp [hws, hp]
    rw [if_pos hcond, if_neg (by simp [hg]), if_neg (by simp [ha])]

/-- The summary stage never emits a credit update. -/
theorem summaryStage_no_update (env : Env) (p : String) (val : Int) :
    Effect.updateCredits val ∉ (summaryStage env p).2.2 := by
  unfold summaryStage
  split
  · split
    · split <;> simp
    · split
      · split <;> simp
      · simp
  · simp

/-- A credit update emitted by the persistence stage always comes from a
strictly positive freshly-read balance, decremented by one. -/
theorem persistStage_update_mem {env : Env} {p : String} {val : Int}
    (h : Effect.updateCredits val ∈ (persistStage env p).2) :
    ∃ q, env.currentProfile = some q ∧ q.credits_remaining > 0 ∧
      val = q.credits_remaining - 1 := by
  unfold persistStage at h
  split at h
  · simp at h
  · simp only [List.cons_append, List.nil_append, List.mem_cons] at h
    rcases h with h | h
    · cases h
    · split at h
      · next q hq =>
          split at h
          · next hpos =>
              simp at h
              exact ⟨q, hq, by assumption, h⟩
          · simp at h
      · simp at h

/-- No execution path of the handler ever writes a negative credit value. -/
theorem updateCredits_nonneg (env : Env) (val : Int)
    (h : Effect.updateCredits val ∈ (postHandler env).2) : 0 ≤ val := by
  have hfin : ∀ vid pt ts lang effs0,
      (∀ w : Int, Effect.updateCredits w ∉ effs0) →
      Effect.updateCredits val ∈ (finishRequest env vid pt ts lang effs0).2 → 0 ≤ val := by
    intro vid pt ts lang effs0 h0 hm
    unfold finishRequest at hm
    simp only [List.mem_append] at hm
    rcases hm with (hm | hm) | hm
    · exact absurd hm (h0 val)
    · exact absurd hm (summaryStage_no_update env pt val)
    · obtain ⟨q, _, hpos, hval⟩ := persistStage_update_mem hm
      omega
  unfold postHandler at h
  split at h
  · simp at h
  · split at h
    · simp at h
    · split at h
      · simp at h
      · split at h
        · simp at h
        · split at h
          all_goals
            rcases Bool.eq_false_or_eq_true
                (jsTruthy (env.clientTranscript.bind ClientTranscript.text)) with hctb | hctb
          all_goals
            first
              | (rw [if_pos hctb] at h
                 exact hfin _ _ _ _ _ (by intro w; simp) h)
              | (rw [if_neg (by simp [hctb])] at h
                 first
                   | exact hfin _ _ _ _ _ (by intro w; simp) h
                   | simp at h)

/-- C10: after a persisted transcription, the handler decrements
`credits_remaining` exactly when the freshly-read value is strictly positive
(so the stored value never becomes negative through this endpoint), and it
does so for every authenticated account — the plan is universally quantified
and unconstrained apart from passing the entry gate with positive credits. -/
theorem c10_credit_decrement (env : Env) (v uid : String) (p q : Profile) (t : TranscriptOut)
    (hguard : (jsTruthy env.videoUrl || env.clientTranscript.isSome) = true)
    (hvid : resolveVideoId env.clientTranscript env.videoUrl = Except.ok (some v))
    (hv : v ≠ "")
    (huser : env.userId = some uid)
    (hprof : env.profile = some p)
    (hcredpos : p.credits_remaining > 0)
    (hct : jsTruthy (env.clientTranscript.bind ClientTranscript.text) = false)
    (htr : env.transcriptResult = Except.ok t)
    (hcur : env.currentProfile = some q) :
    (q.credits_remaining > 0 →
        Effect.updateCredits (q.credits_remaining - 1) ∈ (postHandler env).2 ∧
        0 ≤ q.credits_remaining - 1) ∧
    (q.credits_remaining ≤ 0 →
        ∀ val : Int, Effect.updateCredits val ∉ (postHandler env).2) ∧
    (∀ (env2 : Env) (val : Int),
        Effect.updateCredits val ∈ (postHandler env2).2 → 0 ≤ val) := by
  have hjv : jsTruthy (some v) = true := by simp [jsTruthy, hv]
  have hq : quotaHit env = false := by
    simp only [quotaHit, huser, hprof, Option.isSome_some, Bool.true_and]
    simp only [Bool.and_eq_false_iff]
    right
    simp
    omega
  have hmain :
      postHandler env =
        finishRequest env (some v) t.plainText t.timestampedText t.language
          [Effect.fetchMetadata, Effect.fetchTranscriptNet] := by
    simp [postHandler, hguard, hvid, hjv, hq, hct, htr]
  have hpersist : (persistStage env t.plainText).2 =
      [Effect.insertRecord t.plainText "completed"] ++
        (if q.credits_remaining > 0 then [Effect.updateCredits (q.credits_remaining - 1)]
         else []) := by
    unfold persistStage
    rw [huser]
    simp only [hcur]
  refine ⟨?_, ?_, updateCredits_nonneg⟩
  · intro hpos
    refine ⟨?_, by omega⟩
    rw [hmain]
    unfold finishRequest
    simp only [List.mem_append]
    right
    rw [hpersist, if_pos hpos]
    simp
  · intro hnonpos val hmem
    rw [hmain] at hmem
    unfold finishRequest at hmem
    simp only [List.mem_append] at hmem
    rcases hmem with (hmem | hmem) | hmem
    · simp at hmem
    · exact summaryStage_no_update env t.plainText val hmem
    · rw [hpersist, if_neg (by omega)] at hmem
      simp at hmem

/-- Concrete environment of an authenticated pro-plan account with five
credits whose summary backend throws. -/
def envS : Env :=
  { videoUrl := some "https://www.youtube.com/watch?v=dQw4w9WgXcQ",
    clientTranscript := none,
    withSummary := true,
    userId := some "u1",
    profile := some ⟨"pro", 5⟩,
    metadataTitle := "T", metadataChannel := "C",
    transcriptResult := Except.ok ⟨"Hello World", "[00:01] Hello", "en"⟩,
    geminiKey := none, anthropicKey := some "k",
    summaryResult := Except.error "boom",
    insertedId := some "rec1",
    currentProfile := some ⟨"pro", 5⟩ }

/-- C8 witness: the concrete throwing-backend request still returns 200 with
the transcript, and carries the error as a value. -/
theorem c8_witness :
    (postHandler envS).1.status = 200 ∧
    (postHandler envS).1.transcriptText = some "Hello World" ∧
    (postHandler envS).1.summaryError = some "boom" :=
  have h := c8_summary_nonfatal envS "dQw4w9WgXcQ" ⟨"Hello World", "[00:01] Hello", "en"⟩
    rfl rfl (by decide) rfl rfl rfl
  ⟨h.1, h.2.1, by rw [h.2.2.2.2.1]; rfl⟩

/-- C10 witness at the concrete five-credit environment. -/
theorem c10_witness :
    Effect.updateCredits (5 - 1) ∈ (postHandler envS).2 ∧ (0 : Int) ≤ 5 - 1 :=
  (c10_credit_decrement envS "dQw4w9WgXcQ" "u1" ⟨"pro", 5⟩ ⟨"pro", 5⟩
      ⟨"Hello World", "[00:01] Hello", "en"⟩
      rfl rfl (by decide) rfl rfl (by decide) rfl rfl rfl).1 (by decide)

end Clipwise
